import Mathlib

/-!
Verification of the session/token lifecycle protocol of the `bad-server`
e-commerce backend and its web client.

Server side (from `controllers/auth.ts`, `middlewares/auth.ts`):
the refresh-token rotation engine (`refreshAccessToken`), revocation
(`logout`) and the access-token verification middleware (`auth`).

Client side (from `frontend/src/utils/weblarek-api.ts`): the single-flight
refresh-and-replay gateway (`requestWithRefresh`, `processQueue`,
`isRefreshing`, `failedQueue`), modelled as a small-step transition system
under single-threaded cooperative scheduling.
-/

namespace BadServer

/-! ### Tokens

A raw refresh token is a signed JWT carrying a `sub` claim and an expiry.
We model the raw value by its payload plus a `jti` field standing for the
random entropy that distinguishes two tokens minted for the same user, and
a `sigOk` flag standing for whether `jwt.verify` accepts its signature. -/

structure RefreshTok where
  sub : Nat
  jti : Nat
  exp : Nat
  sigOk : Bool
deriving DecidableEq, Repr

/-- The keyed HMAC-SHA256 hash the server stores instead of the raw token
(`crypto.createHmac('sha256', REFRESH_TOKEN.secret).update(rfTkn)`).
HMAC is modelled as an injective function of the raw value: two raw tokens
collide only if they are the same value. -/
def hashTok (t : RefreshTok) : Nat × Nat := (t.sub, t.jti)

/-- `jwt.verify(rfTkn, REFRESH_TOKEN.secret)`: succeeds (returns the payload)
iff the signature is valid and the token is not expired; otherwise it throws. -/
def jwtVerify (now : Nat) (t : RefreshTok) : Bool := t.sigOk && decide (now < t.exp)

/-! ### User store -/

/-- The slice of the mongoose `User` document the protocol touches:
`_id` and the `tokens` array of stored refresh-token hashes. -/
structure UserRec where
  id : Nat
  tokens : List (Nat × Nat)
deriving DecidableEq, Repr

abbrev Db := List UserRec

/-- `User.findById(uid)`. -/
def findUser (db : Db) (uid : Nat) : Option UserRec :=
  db.find? (fun u => u.id == uid)

/-- `user.save()`: write the (mutated) document back into the store. -/
def saveUser (db : Db) (u : UserRec) : Db :=
  db.map (fun v => if v.id == u.id then u else v)

/-- `findByIdAndUpdate(uid, { $pull: { tokens: { token: h } } })`:
remove every stored hash equal to `h` from user `uid`; a missing user is a
silent no-op (the controller does not call `orFail` here). -/
def pullToken (db : Db) (uid : Nat) (h : Nat × Nat) : Db :=
  db.map (fun v => if v.id == uid then { v with tokens := v.tokens.filter (· ≠ h) } else v)

/-- Modelled from the spec: the mongoose `User` model (`models/user.ts`,
with `generateAccessToken`) is not among the provided sources. Spec §4.1:
the issuer "generates a fresh access token (signed, TTL T_a)"; the access
token is a stateless signed claim set `{subject, issuedAt, expiresAt}`. -/
structure AccessTokPair where
  subject : Nat
  issuedAt : Nat
deriving DecidableEq, Repr

/-- Modelled from the spec: `models/user.ts` (`generateAccessToken`) is not
among the provided sources; per spec §3 the access token's validity is a pure
function of its claims and it is not persisted. -/
def generateAccessToken (u : UserRec) (now : Nat) : AccessTokPair :=
  ⟨u.id, now⟩

/-- Modelled from the spec: `models/user.ts` (`generateRefreshToken`) is not
among the provided sources. Spec §4.1: the issuer "generates a fresh opaque
refresh token (TTL T_r)" and "stores only the refresh token's hash in the
session record"; the controller comment confirms the method itself saves the
new token into the store.  `jti` is the fresh random entropy. -/
def generateRefreshToken (u : UserRec) (jti now ttl : Nat) : RefreshTok × UserRec :=
  let t : RefreshTok := ⟨u.id, jti, now + ttl, true⟩
  (t, { u with tokens := u.tokens ++ [hashTok t] })

/-! ### GET /auth/token — the rotation engine (`refreshAccessToken`) -/

/-- What the rotation handler does to the HTTP response. -/
structure RotateResp where
  ok : Bool
  cookieCleared : Bool
  setCookie : Option RefreshTok
  accessTok : Option AccessTokPair
  unauthorized : Bool
deriving DecidableEq, Repr

/-- The single `catch` branch of `refreshAccessToken`: clear the refresh
cookie and forward `UnauthorizedError` to the error handler. -/
def rotateFail : RotateResp :=
  { ok := false, cookieCleared := true, setCookie := none,
    accessTok := none, unauthorized := true }

/-- `refreshAccessToken` (GET /auth/token), sequential semantics.
`jti` is the entropy of the refresh token that `generateRefreshToken`
would mint during this call. Every throw lands in the handler's `catch`,
which clears the cookie and reports `UnauthorizedError`. -/
def refreshAccessToken (now jti ttl : Nat) (db : Db) (cookie : Option RefreshTok) :
    RotateResp × Db :=
  match cookie with
  | none => (rotateFail, db)
  | some t =>
    if jwtVerify now t then
      match findUser db t.sub with
      | none => (rotateFail, db)
      | some u =>
        let h := hashTok t
        if u.tokens.contains h then
          let u' := { u with tokens := u.tokens.filter (· ≠ h) }
          let access := generateAccessToken u' now
          let (newTok, u'') := generateRefreshToken u' jti now ttl
          ({ ok := true, cookieCleared := false, setCookie := some newTok,
             accessTok := some access, unauthorized := false },
           saveUser db u'')
        else (rotateFail, db)
    else (rotateFail, db)

/-! ### GET /auth/logout (`logout`) -/

/-- `errorHandler` (`middlewares/error-handler.ts`): an error carrying no
`statusCode` is reported as 500. A `JsonWebTokenError` / `TokenExpiredError`
thrown by `jwt.verify` carries none. -/
def errorHandlerStatus (statusCode : Option Nat) : Nat :=
  statusCode.getD 500

structure LogoutResp where
  status : Nat
  cookieCleared : Bool
  errored : Bool
deriving DecidableEq, Repr

/-- `logout` (GET /auth/logout).  With no cookie, or with a cookie that
verifies, it pulls the hash and answers 200.  When `jwt.verify` throws
(bad signature or expired), the `catch` still clears the cookie but forwards
the raw error to `errorHandler`, which answers 500. -/
def logout (now : Nat) (db : Db) (cookie : Option RefreshTok) : LogoutResp × Db :=
  match cookie with
  | none => ({ status := 200, cookieCleared := true, errored := false }, db)
  | some t =>
    if jwtVerify now t then
      ({ status := 200, cookieCleared := true, errored := false },
       pullToken db t.sub (hashTok t))
    else
      ({ status := errorHandlerStatus none, cookieCleared := true, errored := true }, db)

/-! ### Access-token verification middleware (`auth`) -/

/-- An access token as presented in the `Authorization: Bearer` header:
payload plus a signature-validity flag. -/
structure AccessTok where
  sub : Nat
  exp : Nat
  sigOk : Bool
deriving DecidableEq, Repr

inductive AuthOutcome where
  /-- `res.locals.user = user; next()` -/
  | ok (uid : Nat)
  /-- missing or non-Bearer `Authorization` header -/
  | unauthorizedMissing
  /-- `TokenExpiredError` from `jwt.verify` -/
  | unauthorizedExpired
  /-- any other `jwt.verify` failure (bad signature / malformed) -/
  | unauthorizedInvalid
  /-- `ForbiddenError` when `User.findById(payload.sub)` yields no user -/
  | forbidden
deriving DecidableEq, Repr

/-- The `auth` middleware (`middlewares/auth.ts`): verify the bearer token's
signature and expiry, then look the subject up in the user store. -/
def auth (now : Nat) (db : Db) (header : Option AccessTok) : AuthOutcome :=
  match header with
  | none => .unauthorizedMissing
  | some t =>
    if t.sigOk then
      if t.exp ≤ now then .unauthorizedExpired
      else
        match findUser db t.sub with
        | none => .forbidden
        | some u => .ok u.id
    else .unauthorizedInvalid

/-! ### Two concurrent rotations over the shared store

`refreshAccessToken` loads the user document once (`User.findById`), checks
`user.tokens.some(...)` on that in-memory snapshot, filters the snapshot's
array and saves — a read-modify-write, not an atomic conditional pull.  We
split one rotation into its storage-visible steps: a *read* (load the
document) and a *commit* (snapshot check, filter, mint, save), and interleave
two handler executions that present the same raw token. -/

inductive PState where
  /-- before `User.findById` resolves -/
  | start
  /-- holding the loaded document snapshot -/
  | loaded (u : UserRec)
  /-- response sent -/
  | done (r : RotateResp)
deriving DecidableEq, Repr

/-- One storage-visible step of a single `refreshAccessToken` execution
presenting cookie `t`, minting with entropy `jti`. -/
def rotStep (now jti ttl : Nat) (t : RefreshTok) (db : Db) : PState → PState × Db
  | .start =>
    if jwtVerify now t then
      match findUser db t.sub with
      | none => (.done rotateFail, db)
      | some u => (.loaded u, db)
    else (.done rotateFail, db)
  | .loaded u =>
    let h := hashTok t
    if u.tokens.contains h then
      let u' := { u with tokens := u.tokens.filter (· ≠ h) }
      let access := generateAccessToken u' now
      let (newTok, u'') := generateRefreshToken u' jti now ttl
      (.done { ok := true, cookieCleared := false, setCookie := some newTok,
               accessTok := some access, unauthorized := false },
       saveUser db u'')
    else (.done rotateFail, db)
  | .done r => (.done r, db)

structure RaceState where
  db : Db
  procA : PState
  procB : PState
deriving DecidableEq, Repr

/-- Advance one of the two racing handler executions (`true` = A, `false` = B).
Both present the same raw refresh token `t`; A mints with entropy `jtiA`,
B with `jtiB`. -/
def raceStep (now ttl : Nat) (t : RefreshTok) (jtiA jtiB : Nat)
    (s : RaceState) (c : Bool) : RaceState :=
  if c then
    let (p, db') := rotStep now jtiA ttl t s.db s.procA
    { s with procA := p, db := db' }
  else
    let (p, db') := rotStep now jtiB ttl t s.db s.procB
    { s with procB := p, db := db' }

/-- Run the race under a given interleaving. -/
def raceRun (now ttl : Nat) (t : RefreshTok) (jtiA jtiB : Nat)
    (db : Db) (sched : List Bool) : RaceState :=
  sched.foldl (raceStep now ttl t jtiA jtiB) { db := db, procA := .start, procB := .start }

/-- Did this execution answer with a fresh pair? -/
def pDoneOk : PState → Bool
  | .done r => r.ok
  | _ => false

end BadServer

namespace Client

/-! ### The Client Request Gateway (`weblarek-api.ts`)

`requestWithRefresh` under single-threaded cooperative scheduling: the shared
module state is `isRefreshing` and `failedQueue`; the suspension points are
network responses.  Each caller of `requestWithRefresh` is one process; an
event is the arrival of one network response (the caller's first response,
the refresher's `/auth/token` response, or a replay response).  The code
between two suspension points runs atomically, so each event is one step. -/

/-- A settled `fetch`/`handleResponse` result: `ok` mirrors `response.ok`,
`status` the HTTP status attached to the rejection. -/
structure Resp where
  ok : Bool
  status : Nat
  body : Nat
deriving DecidableEq, Repr

/-- `handleResponse` rejects with `statusCode = 401`:
the only case in which `requestWithRefresh`'s catch refreshes. -/
def is401 (r : Resp) : Bool := !r.ok && r.status == 401

inductive COutcome where
  /-- a success or non-401 failure handed back unchanged -/
  | passthrough (r : Resp)
  /-- settled with the response of the replayed original request -/
  | replayResult (r : Resp)
  /-- rejected with the failed rotation's error -/
  | rejectedRefresh
deriving DecidableEq, Repr

inductive CPhase where
  /-- initial request in flight -/
  | awaitFirst
  /-- this caller set `isRefreshing` and awaits `/auth/token` -/
  | refreshing
  /-- an entry for this caller sits in `failedQueue` -/
  | queued
  /-- replay of the original request in flight -/
  | replaying
  | settled (o : COutcome)
deriving DecidableEq, Repr

/-- The environment: what the network answers. `firstResp i` settles caller
`i`'s initial request, `refreshOk` is the fate of the single `/auth/token`
call, `newToken` the rotated access token, `replayResp i` settles `i`'s
replay. -/
structure Env (n : Nat) where
  firstResp : Fin n → Resp
  refreshOk : Bool
  newToken : Nat
  replayResp : Fin n → Resp

/-- The gateway's process-wide state plus each caller's continuation point.
`storeToken`/`storeUser` are the Redux store's `user.accessToken`/`user.data`;
`cookieCleared` records `forceLogout`'s expiring of the `accessToken` cookie;
`replayToken i` records, once caller `i` re-sends its request, which store
token `request` attached at that moment. -/
structure GState (n : Nat) where
  phase : Fin n → CPhase
  isRefreshing : Bool
  queue : List (Fin n)
  rotateCount : Nat
  storeToken : Option Nat
  storeUser : Option Nat
  cookieCleared : Bool
  replayToken : Fin n → Option (Option Nat)

/-- A network response arrival. -/
inductive Event (n : Nat) where
  | first (i : Fin n)
  | refresh (i : Fin n)
  | replay (i : Fin n)
deriving DecidableEq, Repr

/-- One cooperative step of `requestWithRefresh`.

* `.first i`: caller `i`'s initial request settles.  Non-401: rethrow to the
  caller unchanged.  401 with `isRefreshing`: push a `{resolve, reject}`
  entry onto `failedQueue` and suspend.  401 otherwise: set `isRefreshing`,
  fire `refreshToken()` (one rotate request reaches the server).
* `.refresh i`: the rotate call settles for refresher `i`.  Success:
  `setAccessToken`, `processQueue(null)` resolves every queued entry (each
  then re-sends its original request, reading the just-stored token), the
  refresher replays its own request, `finally` clears the flag.  Failure:
  `processQueue(err)` rejects every queued entry, `forceLogout` expires the
  `accessToken` cookie and hard-navigates to `/login` (the reloaded process
  restarts from the slice's `initialState`: `data: null, accessToken: null`),
  and the refresher's own promise rejects.
* `.replay i`: caller `i`'s replayed request settles with its response.

An event whose caller is not at the matching suspension point is a no-op. -/
def applyEvent (env : Env n) (s : GState n) : Event n → GState n
  | .first i =>
    match s.phase i with
    | .awaitFirst =>
      let r := env.firstResp i
      if is401 r then
        if s.isRefreshing then
          { s with phase := Function.update s.phase i .queued, queue := s.queue ++ [i] }
        else
          { s with phase := Function.update s.phase i .refreshing,
                   isRefreshing := true, rotateCount := s.rotateCount + 1 }
      else
        { s with phase := Function.update s.phase i (.settled (.passthrough r)) }
    | _ => s
  | .refresh i =>
    match s.phase i with
    | .refreshing =>
      if env.refreshOk then
        let tok := some env.newToken
        { s with
          phase := fun j => if j = i ∨ j ∈ s.queue then .replaying else s.phase j,
          queue := [], isRefreshing := false, storeToken := tok,
          replayToken := fun j => if j = i ∨ j ∈ s.queue then some tok else s.replayToken j }
      else
        { s with
          phase := fun j => if j = i ∨ j ∈ s.queue then .settled .rejectedRefresh else s.phase j,
          queue := [], isRefreshing := false,
          storeToken := none, storeUser := none, cookieCleared := true }
    | _ => s
  | .replay i =>
    match s.phase i with
    | .replaying =>
      { s with phase := Function.update s.phase i (.settled (.replayResult (env.replayResp i))) }
    | _ => s

/-- Module load: `isRefreshing = false`, `failedQueue = []`; every caller's
initial request is in flight. -/
def initG (n : Nat) (tok0 usr0 : Option Nat) : GState n :=
  { phase := fun _ => .awaitFirst, isRefreshing := false, queue := [],
    rotateCount := 0, storeToken := tok0, storeUser := usr0,
    cookieCleared := false, replayToken := fun _ => none }

def runG (env : Env n) (s : GState n) (evs : List (Event n)) : GState n :=
  evs.foldl (applyEvent env) s

def settledB : CPhase → Bool
  | .settled _ => true
  | _ => false

/-- The gateway's reachable-state invariant: at most one refresher, the flag
tracks the refresher's existence, and `failedQueue` membership coincides with
the `queued` phase. -/
def InvG (s : GState n) : Prop :=
  (∀ i j, s.phase i = .refreshing → s.phase j = .refreshing → i = j) ∧
  (s.isRefreshing = false → (∀ i, s.phase i ≠ .refreshing) ∧ s.queue = []) ∧
  (∀ j, j ∈ s.queue ↔ s.phase j = .queued) ∧
  (s.isRefreshing = true → ∃ i, s.phase i = .refreshing)

instance (s : GState n) : Decidable (InvG s) := by
  unfold InvG; infer_instance

/-- Intermediate invariant for the burst window (all 401s arrive before the
refresh settles): the gateway state is invariant-respecting, every caller is
still awaiting its first response, refreshing, or queued, and the number of
rotate calls sent equals one exactly when a refresh is in flight. -/
def StageAProp {n : Nat} (s : GState n) : Prop :=
  InvG s ∧
  (∀ k, s.phase k = .awaitFirst ∨ s.phase k = .refreshing ∨ s.phase k = .queued) ∧
  s.rotateCount = (if s.isRefreshing then 1 else 0)

end Client

namespace BadServer

/-! ### Server-side lemmas -/

theorem findUser_id {db : Db} {uid : Nat} {u : UserRec}
    (h : findUser db uid = some u) : u.id = uid := by
  have := List.find?_some h
  simpa using this

theorem findUser_saveUser {uid : Nat} (u v : UserRec) (hid : v.id = u.id) :
    ∀ db : Db, findUser db uid = some u → findUser (saveUser db v) uid = some v := by
  intro db
  induction db with
  | nil => intro h; simp [findUser] at h
  | cons w ws ih =>
    intro h
    have hv : v.id = uid := hid.trans (findUser_id h)
    by_cases hw : w.id = uid
    · have h2 : (w.id == v.id) = true := by simp [hv, hw]
      show List.find? _ ((if w.id == v.id then v else w) :: saveUser ws v) = some v
      rw [if_pos h2]
      exact List.find?_cons_of_pos _ (by simp [hv])
    · have h1 : ¬((w.id == uid) = true) := by simp [hw]
      have h2 : ¬((w.id == v.id) = true) := by simp [hv, hw]
      have h' : findUser ws uid = some u := by
        have hstep : findUser (w :: ws) uid = findUser ws uid :=
          List.find?_cons_of_neg _ h1
        rwa [hstep] at h
      have hstep2 : findUser (saveUser (w :: ws) v) uid = findUser (saveUser ws v) uid := by
        show List.find? _ ((if w.id == v.id then v else w) :: saveUser ws v) = _
        rw [if_neg h2]
        exact List.find?_cons_of_neg _ h1
      rw [hstep2]
      exact ih h'

/-! ### Claim theorems: rotation engine -/

/-- Claim C1: two sequential `rotate` calls presenting the same raw refresh
token succeed at most once — a successful rotation removes the token's hash
from the user's active set, so the immediately following presentation of the
same raw token fails with `Unauthorized`.  `hfresh` states that the entropy
minted for the replacement token differs from the presented token's (fresh
randomness), so the new stored hash cannot collide with the consumed one. -/
theorem rotate_one_time_use
    (now now2 jti jti2 ttl ttl2 : Nat) (db : Db) (t : RefreshTok)
    (hfresh : jti ≠ t.jti)
    (hok : (refreshAccessToken now jti ttl db (some t)).1.ok = true) :
    (refreshAccessToken now2 jti2 ttl2
        (refreshAccessToken now jti ttl db (some t)).2 (some t)).1.ok = false ∧
    (refreshAccessToken now2 jti2 ttl2
        (refreshAccessToken now jti ttl db (some t)).2 (some t)).1.unauthorized = true := by
  by_cases hv : jwtVerify now t
  · cases hfu : findUser db t.sub with
    | none => simp [refreshAccessToken, hv, hfu, rotateFail] at hok
    | some u =>
      by_cases hc : u.tokens.contains (hashTok t)
      · have hdb : (refreshAccessToken now jti ttl db (some t)).2
            = saveUser db ⟨u.id, u.tokens.filter (fun x => x ≠ hashTok t)
                ++ [hashTok ⟨u.id, jti, now + ttl, true⟩]⟩ := by
          simp only [refreshAccessToken, hv, if_true, hfu, generateRefreshToken]
          rw [if_pos hc]
        have hfu2 := findUser_saveUser u
          ⟨u.id, u.tokens.filter (fun x => x ≠ hashTok t) ++ [hashTok ⟨u.id, jti, now + ttl, true⟩]⟩
          rfl db hfu
        have hmem : hashTok t ∉ (⟨u.id, u.tokens.filter (fun x => x ≠ hashTok t)
            ++ [hashTok ⟨u.id, jti, now + ttl, true⟩]⟩ : UserRec).tokens := by
          intro hm
          rcases List.mem_append.mp hm with hm1 | hm2
          · exact (of_decide_eq_true (List.mem_filter.mp hm1).2) rfl
          · have hp : hashTok t = (u.id, jti) := by simpa [hashTok] using hm2
            exact hfresh (congrArg Prod.snd hp).symm
        rw [hdb]
        obtain ⟨u2, hu2⟩ : ∃ x : UserRec, (⟨u.id, u.tokens.filter (fun x => x ≠ hashTok t)
            ++ [hashTok ⟨u.id, jti, now + ttl, true⟩]⟩ : UserRec) = x := ⟨_, rfl⟩
        rw [hu2] at hfu2 hmem ⊢
        by_cases hv2 : jwtVerify now2 t
        · constructor <;> simp [refreshAccessToken, hv2, hfu2, hmem, rotateFail]
        · constructor <;> simp [refreshAccessToken, hv2, rotateFail]
      · have hc' : hashTok t ∉ u.tokens := fun hm => hc (List.elem_iff.mpr hm)
        simp [refreshAccessToken, hv, hfu, hc', rotateFail] at hok
  · simp [refreshAccessToken, hv, rotateFail] at hok

/-- Witness for C1: a user holding the hash of token `⟨1,0,100,true⟩`; the
first rotation succeeds, the second presentation of the same raw token is
`Unauthorized`. -/
theorem rotate_one_time_use_witness :
    (7 : Nat) ≠ (RefreshTok.mk 1 0 100 true).jti ∧
    ((refreshAccessToken 0 7 1000 [⟨1, [(1, 0)]⟩] (some ⟨1, 0, 100, true⟩)).1.ok = true) ∧
    ((refreshAccessToken 0 8 1000
        (refreshAccessToken 0 7 1000 [⟨1, [(1, 0)]⟩] (some ⟨1, 0, 100, true⟩)).2
        (some ⟨1, 0, 100, true⟩)).1.ok = false ∧
     (refreshAccessToken 0 8 1000
        (refreshAccessToken 0 7 1000 [⟨1, [(1, 0)]⟩] (some ⟨1, 0, 100, true⟩)).2
        (some ⟨1, 0, 100, true⟩)).1.unauthorized = true) :=
  ⟨by decide, by decide,
   rotate_one_time_use 0 0 7 8 1000 1000 [⟨1, [(1, 0)]⟩] ⟨1, 0, 100, true⟩
     (by decide) (by decide)⟩

/-- Claim C2: the code's check-and-remove is *not* a single atomic storage
operation — each handler checks `tokenExists` on its own in-memory snapshot
and then saves a filtered copy.  Evaluating the two racing executions at the
failing interleaving read-A, read-B, commit-A, commit-B over a store holding
one active hash: both rotations succeed, contradicting the claimed
exactly-one-winner guarantee. -/
theorem rotate_race_not_atomic :
    pDoneOk (raceRun 0 1000 ⟨1, 0, 100, true⟩ 5 6
      [⟨1, [hashTok ⟨1, 0, 100, true⟩]⟩] [true, false, true, false]).procA = true ∧
    pDoneOk (raceRun 0 1000 ⟨1, 0, 100, true⟩ 5 6
      [⟨1, [hashTok ⟨1, 0, 100, true⟩]⟩] [true, false, true, false]).procB = true := by
  decide

/-- Claim C3: every failing execution of the rotation handler clears the
refresh cookie, reports `Unauthorized`, issues nothing, and leaves the store
untouched; every successful execution issues a full new pair (access token
and rotated cookie) with no teardown — there is no partial-success outcome. -/
theorem rotate_no_partial_success (now jti ttl : Nat) (db : Db) (cookie : Option RefreshTok) :
    ((refreshAccessToken now jti ttl db cookie).1.ok = false ∧
     (refreshAccessToken now jti ttl db cookie).1.cookieCleared = true ∧
     (refreshAccessToken now jti ttl db cookie).1.unauthorized = true ∧
     (refreshAccessToken now jti ttl db cookie).1.setCookie = none ∧
     (refreshAccessToken now jti ttl db cookie).1.accessTok = none ∧
     (refreshAccessToken now jti ttl db cookie).2 = db) ∨
    ((refreshAccessToken now jti ttl db cookie).1.ok = true ∧
     (refreshAccessToken now jti ttl db cookie).1.cookieCleared = false ∧
     (refreshAccessToken now jti ttl db cookie).1.unauthorized = false ∧
     (∃ a, (refreshAccessToken now jti ttl db cookie).1.accessTok = some a) ∧
     (∃ tk, (refreshAccessToken now jti ttl db cookie).1.setCookie = some tk)) := by
  cases cookie with
  | none => left; simp [refreshAccessToken, rotateFail]
  | some t =>
    by_cases hv : jwtVerify now t
    · cases hfu : findUser db t.sub with
      | none => left; simp [refreshAccessToken, hv, hfu, rotateFail]
      | some u =>
        by_cases hc : u.tokens.contains (hashTok t)
        · have hc2 : hashTok t ∈ u.tokens := List.elem_iff.mp hc
          right; simp [refreshAccessToken, hv, hfu, hc2, generateRefreshToken]
        · have hc2 : hashTok t ∉ u.tokens := fun hm => hc (List.elem_iff.mpr hm)
          left; simp [refreshAccessToken, hv, hfu, hc2, rotateFail]
    · left; simp [refreshAccessToken, hv, rotateFail]

/-! ### Claim theorems: logout and access-token verification -/

/-- Counterexample to claim C4 as stated: presenting a refresh cookie whose
signature does not verify makes `logout` forward the `jwt.verify` error to
the error handler, which answers 500 — not 200, and an error is raised. -/
theorem logout_error_counterexample :
    (logout 0 [] (some ⟨1, 1, 10, false⟩)).1.status = 500 ∧
    (logout 0 [] (some ⟨1, 1, 10, false⟩)).1.errored = true := by
  decide

/-- Claim C4 (amended): for every input whose refresh cookie is absent or
passes verification — including a token already revoked or never issued —
`logout` raises no error and responds 200; only a cookie failing
signature/TTL verification makes it error (with status 500). -/
theorem logout_idempotent_amended (now : Nat) (db : Db) (cookie : Option RefreshTok)
    (h : cookie = none ∨ ∃ t, cookie = some t ∧ jwtVerify now t = true) :
    (logout now db cookie).1.status = 200 ∧ (logout now db cookie).1.errored = false := by
  rcases h with h | ⟨t, rfl, hv⟩
  · subst h; simp [logout]
  · simp [logout, hv]

/-- Witness for the amended C4: a validly signed token that was never issued
(empty store) — revocation still answers 200 without error. -/
theorem logout_idempotent_amended_witness :
    (logout 0 [] (some ⟨1, 2, 10, true⟩)).1.status = 200 ∧
    (logout 0 [] (some ⟨1, 2, 10, true⟩)).1.errored = false :=
  logout_idempotent_amended 0 [] (some ⟨1, 2, 10, true⟩)
    (Or.inr ⟨⟨1, 2, 10, true⟩, rfl, by decide⟩)

/-- Claim C10: every execution of the logout handler clears the
refresh-token cookie — on the success path and on every error path alike. -/
theorem logout_always_clears_cookie (now : Nat) (db : Db) (cookie : Option RefreshTok) :
    (logout now db cookie).1.cookieCleared = true := by
  cases cookie with
  | none => rfl
  | some t => by_cases hv : jwtVerify now t <;> simp [logout, hv]

/-- Counterexample to claim C9 as stated: the same validly signed, unexpired
access token is rejected with `Forbidden` against an empty user store and
accepted against a store holding its subject — the middleware's result is
not a function of the token value alone, and `Forbidden` is neither
`Expired` nor `Malformed`. -/
theorem auth_state_dependent_counterexample :
    auth 0 [] (some ⟨1, 10, true⟩) = .forbidden ∧
    auth 0 [⟨1, []⟩] (some ⟨1, 10, true⟩) = .ok 1 ∧
    auth 0 [⟨1, []⟩] (some ⟨1, 10, true⟩) ≠ auth 0 [] (some ⟨1, 10, true⟩) := by
  decide

/-- Claim C9 (amended): access-token verification checks the signature and
expiry and then loads the subject from the user store (performing I/O): it
accepts exactly when the signature is valid, the token unexpired, and the
subject exists; an unknown subject yields `Forbidden`; a missing header is
`Unauthorized`.  Its result is a function of the token and the user store. -/
theorem auth_characterization (now : Nat) (db : Db) (t : AccessTok) :
    ((∃ uid, auth now db (some t) = .ok uid) ↔
      t.sigOk = true ∧ now < t.exp ∧ ∃ u, findUser db t.sub = some u) ∧
    (auth now db (some t) = .forbidden ↔
      t.sigOk = true ∧ now < t.exp ∧ findUser db t.sub = none) ∧
    auth now db none = .unauthorizedMissing := by
  refine ⟨?_, ?_, rfl⟩ <;>
  · by_cases hs : t.sigOk
    · by_cases he : t.exp ≤ now
      · simp [auth, hs, he, Nat.not_lt.mpr he]
      · cases hfu : findUser db t.sub with
        | none => simp [auth, hs, he, hfu, Nat.not_le.mp he]
        | some u => simp [auth, hs, he, hfu, Nat.not_le.mp he]
    · simp [auth, hs]

end BadServer

namespace Client

theorem update_eq_phase_iff {n : Nat} {f : Fin n → CPhase} {i a : Fin n} {v w : CPhase} :
    Function.update f i v a = w ↔ ((a = i ∧ v = w) ∨ (a ≠ i ∧ f a = w)) := by
  by_cases hai : a = i <;> simp [Function.update_apply, hai]

theorem applyEvent_first_pass {n : Nat} (env : Env n) (s : GState n) (i : Fin n)
    (hpi : s.phase i = .awaitFirst) (h4 : is401 (env.firstResp i) = false) :
    applyEvent env s (.first i) =
      { s with phase := Function.update s.phase i (.settled (.passthrough (env.firstResp i))) } := by
  simp [applyEvent, hpi, h4]

theorem applyEvent_first_queued {n : Nat} (env : Env n) (s : GState n) (i : Fin n)
    (hpi : s.phase i = .awaitFirst) (h4 : is401 (env.firstResp i) = true)
    (hr : s.isRefreshing = true) :
    applyEvent env s (.first i) =
      { s with phase := Function.update s.phase i .queued, queue := s.queue ++ [i] } := by
  simp [applyEvent, hpi, h4, hr]

theorem applyEvent_first_refresher {n : Nat} (env : Env n) (s : GState n) (i : Fin n)
    (hpi : s.phase i = .awaitFirst) (h4 : is401 (env.firstResp i) = true)
    (hr : s.isRefreshing = false) :
    applyEvent env s (.first i) =
      { s with phase := Function.update s.phase i .refreshing,
               isRefreshing := true, rotateCount := s.rotateCount + 1 } := by
  simp [applyEvent, hpi, h4, hr]

theorem applyEvent_first_skip {n : Nat} (env : Env n) (s : GState n) (i : Fin n)
    (hpi : s.phase i ≠ .awaitFirst) :
    applyEvent env s (.first i) = s := by
  cases h : s.phase i <;> simp [applyEvent, h] <;> exact absurd h hpi

theorem applyEvent_refresh_ok {n : Nat} (env : Env n) (s : GState n) (i : Fin n)
    (hpi : s.phase i = .refreshing) (hok : env.refreshOk = true) :
    applyEvent env s (.refresh i) =
      { s with
        phase := fun j => if j = i ∨ j ∈ s.queue then .replaying else s.phase j,
        queue := [], isRefreshing := false, storeToken := some env.newToken,
        replayToken := fun j =>
          if j = i ∨ j ∈ s.queue then some (some env.newToken) else s.replayToken j } := by
  simp [applyEvent, hpi, hok]

theorem applyEvent_refresh_fail {n : Nat} (env : Env n) (s : GState n) (i : Fin n)
    (hpi : s.phase i = .refreshing) (hok : env.refreshOk = false) :
    applyEvent env s (.refresh i) =
      { s with
        phase := fun j => if j = i ∨ j ∈ s.queue then .settled .rejectedRefresh else s.phase j,
        queue := [], isRefreshing := false,
        storeToken := none, storeUser := none, cookieCleared := true } := by
  simp [applyEvent, hpi, hok]

theorem applyEvent_refresh_skip {n : Nat} (env : Env n) (s : GState n) (i : Fin n)
    (hpi : s.phase i ≠ .refreshing) :
    applyEvent env s (.refresh i) = s := by
  cases h : s.phase i <;> simp [applyEvent, h] <;> exact absurd h hpi

theorem applyEvent_replay_act {n : Nat} (env : Env n) (s : GState n) (i : Fin n)
    (hpi : s.phase i = .replaying) :
    applyEvent env s (.replay i) =
      { s with phase := Function.update s.phase i (.settled (.replayResult (env.replayResp i))) } := by
  simp [applyEvent, hpi]

theorem applyEvent_replay_skip {n : Nat} (env : Env n) (s : GState n) (i : Fin n)
    (hpi : s.phase i ≠ .replaying) :
    applyEvent env s (.replay i) = s := by
  cases h : s.phase i <;> simp [applyEvent, h] <;> exact absurd h hpi

end Client

namespace Client

theorem invG_applyEvent {n : Nat} (env : Env n) (s : GState n) (hI : InvG s) (e : Event n) :
    InvG (applyEvent env s e) := by
  obtain ⟨hUniq, hOff, hQ, hOn⟩ := hI
  cases e with
  | first i =>
    by_cases hpi : s.phase i = .awaitFirst
    · by_cases h4 : is401 (env.firstResp i)
      · by_cases hr : s.isRefreshing
        · rw [applyEvent_first_queued env s i hpi h4 hr]
          refine ⟨?_, ?_, ?_, ?_⟩
          · intro a b ha hb
            rw [update_eq_phase_iff] at ha hb
            rcases ha with ⟨_, hv⟩ | ⟨_, ha⟩
            · exact absurd hv (by simp)
            · rcases hb with ⟨_, hv⟩ | ⟨_, hb⟩
              · exact absurd hv (by simp)
              · exact hUniq a b ha hb
          · intro hoff; rw [hr] at hoff; exact absurd hoff (by simp)
          · intro j
            constructor
            · intro hj
              rcases List.mem_append.mp hj with hj1 | hj2
              · have hq := (hQ j).mp hj1
                rw [update_eq_phase_iff]
                right
                refine ⟨?_, hq⟩
                intro hji; subst hji; rw [hpi] at hq; exact absurd hq (by simp)
              · have hji : j = i := by simpa using hj2
                subst hji; rw [update_eq_phase_iff]; left; exact ⟨rfl, rfl⟩
            · intro hj
              rw [update_eq_phase_iff] at hj
              rcases hj with ⟨hji, _⟩ | ⟨_, hj⟩
              · subst hji; exact List.mem_append.mpr (Or.inr (by simp))
              · exact List.mem_append.mpr (Or.inl ((hQ j).mpr hj))
          · intro _
            obtain ⟨k, hk⟩ := hOn hr
            refine ⟨k, ?_⟩
            rw [update_eq_phase_iff]
            right
            refine ⟨?_, hk⟩
            intro hki; subst hki; rw [hpi] at hk; exact absurd hk (by simp)
        · rw [applyEvent_first_refresher env s i hpi h4 (by simpa using hr)]
          have hnor := (hOff (by simpa using hr)).1
          have hemp := (hOff (by simpa using hr)).2
          refine ⟨?_, ?_, ?_, ?_⟩
          · intro a b ha hb
            rw [update_eq_phase_iff] at ha hb
            rcases ha with ⟨hai, _⟩ | ⟨_, ha⟩
            · rcases hb with ⟨hbi, _⟩ | ⟨_, hb⟩
              · rw [hai, hbi]
              · exact absurd hb (hnor b)
            · exact absurd ha (hnor a)
          · intro hoff; exact absurd hoff (by simp)
          · intro j
            rw [hemp, update_eq_phase_iff]
            constructor
            · intro hj; exact absurd hj (by simp)
            · intro hj
              rcases hj with ⟨_, hv⟩ | ⟨_, hj⟩
              · exact absurd hv (by simp)
              · have := (hQ j).mpr hj; rw [hemp] at this; exact absurd this (by simp)
          · intro _
            exact ⟨i, by rw [update_eq_phase_iff]; left; exact ⟨rfl, rfl⟩⟩
      · rw [applyEvent_first_pass env s i hpi (by simpa using h4)]
        refine ⟨?_, ?_, ?_, ?_⟩
        · intro a b ha hb
          rw [update_eq_phase_iff] at ha hb
          rcases ha with ⟨_, hv⟩ | ⟨_, ha⟩
          · exact absurd hv (by simp)
          · rcases hb with ⟨_, hv⟩ | ⟨_, hb⟩
            · exact absurd hv (by simp)
            · exact hUniq a b ha hb
        · intro hoff
          refine ⟨?_, (hOff hoff).2⟩
          intro a ha
          rw [update_eq_phase_iff] at ha
          rcases ha with ⟨_, hv⟩ | ⟨_, ha⟩
          · exact absurd hv (by simp)
          · exact absurd ha ((hOff hoff).1 a)
        · intro j
          rw [update_eq_phase_iff]
          constructor
          · intro hj
            have hq := (hQ j).mp hj
            right
            refine ⟨?_, hq⟩
            intro hji; subst hji; rw [hpi] at hq; exact absurd hq (by simp)
          · intro hj
            rcases hj with ⟨_, hv⟩ | ⟨_, hj⟩
            · exact absurd hv (by simp)
            · exact (hQ j).mpr hj
        · intro hflag
          obtain ⟨k, hk⟩ := hOn hflag
          refine ⟨k, ?_⟩
          rw [update_eq_phase_iff]
          right
          refine ⟨?_, hk⟩
          intro hki; subst hki; rw [hpi] at hk; exact absurd hk (by simp)
    · rw [applyEvent_first_skip env s i hpi]
      exact ⟨hUniq, hOff, hQ, hOn⟩
  | refresh i =>
    by_cases hpi : s.phase i = .refreshing
    · have hnone : ∀ (X : CPhase), X ≠ .refreshing → ∀ k,
          (if k = i ∨ k ∈ s.queue then X else s.phase k) ≠ .refreshing := by
        intro X hX k
        by_cases hc : k = i ∨ k ∈ s.queue
        · simpa [hc] using hX
        · simp only [hc, if_false]
          intro hk
          exact hc (Or.inl (hUniq k i hk hpi))
      have hqueued : ∀ (X : CPhase), X ≠ .queued → ∀ k,
          (if k = i ∨ k ∈ s.queue then X else s.phase k) = .queued → False := by
        intro X hX k hk
        by_cases hc : k = i ∨ k ∈ s.queue
        · rw [if_pos hc] at hk; exact hX hk
        · rw [if_neg hc] at hk
          exact hc (Or.inr ((hQ k).mpr hk))
      by_cases hok : env.refreshOk
      · rw [applyEvent_refresh_ok env s i hpi hok]
        refine ⟨?_, ?_, ?_, ?_⟩
        · intro a b ha _
          exact absurd ha (hnone .replaying (by simp) a)
        · intro _
          exact ⟨fun a => hnone .replaying (by simp) a, rfl⟩
        · intro j
          constructor
          · intro hj; exact absurd hj (by simp)
          · intro hj; exact absurd hj (fun h => hqueued .replaying (by simp) j h)
        · intro hflag; exact absurd hflag (by simp)
      · rw [applyEvent_refresh_fail env s i hpi (by simpa using hok)]
        refine ⟨?_, ?_, ?_, ?_⟩
        · intro a b ha _
          exact absurd ha (hnone (.settled .rejectedRefresh) (by simp) a)
        · intro _
          exact ⟨fun a => hnone (.settled .rejectedRefresh) (by simp) a, rfl⟩
        · intro j
          constructor
          · intro hj; exact absurd hj (by simp)
          · intro hj; exact absurd hj (fun h => hqueued (.settled .rejectedRefresh) (by simp) j h)
        · intro hflag; exact absurd hflag (by simp)
    · rw [applyEvent_refresh_skip env s i hpi]
      exact ⟨hUniq, hOff, hQ, hOn⟩
  | replay i =>
    by_cases hpi : s.phase i = .replaying
    · rw [applyEvent_replay_act env s i hpi]
      refine ⟨?_, ?_, ?_, ?_⟩
      · intro a b ha hb
        rw [update_eq_phase_iff] at ha hb
        rcases ha with ⟨_, hv⟩ | ⟨_, ha⟩
        · exact absurd hv (by simp)
        · rcases hb with ⟨_, hv⟩ | ⟨_, hb⟩
          · exact absurd hv (by simp)
          · exact hUniq a b ha hb
      · intro hoff
        refine ⟨?_, (hOff hoff).2⟩
        intro a ha
        rw [update_eq_phase_iff] at ha
        rcases ha with ⟨_, hv⟩ | ⟨_, ha⟩
        · exact absurd hv (by simp)
        · exact absurd ha ((hOff hoff).1 a)
      · intro j
        rw [update_eq_phase_iff]
        constructor
        · intro hj
          have hq := (hQ j).mp hj
          right
          refine ⟨?_, hq⟩
          intro hji; subst hji; rw [hpi] at hq; exact absurd hq (by simp)
        · intro hj
          rcases hj with ⟨_, hv⟩ | ⟨_, hj⟩
          · exact absurd hv (by simp)
          · exact (hQ j).mpr hj
      · intro hflag
        obtain ⟨k, hk⟩ := hOn hflag
        refine ⟨k, ?_⟩
        rw [update_eq_phase_iff]
        right
        refine ⟨?_, hk⟩
        intro hki; subst hki; rw [hpi] at hk; exact absurd hk (by simp)
    · rw [applyEvent_replay_skip env s i hpi]
      exact ⟨hUniq, hOff, hQ, hOn⟩

theorem invG_initG (n : Nat) (tok0 usr0 : Option Nat) : InvG (initG n tok0 usr0) := by
  refine ⟨?_, ?_, ?_, ?_⟩
  · intro a b ha _; simp [initG] at ha
  · intro _; exact ⟨fun i => by simp [initG], rfl⟩
  · intro j; simp [initG]
  · intro h; simp [initG] at h

theorem invG_runG {n : Nat} (env : Env n) :
    ∀ (evs : List (Event n)) (s : GState n), InvG s → InvG (runG env s evs) := by
  intro evs
  induction evs with
  | nil => intro s hI; exact hI
  | cons e rest ih =>
    intro s hI
    exact ih (applyEvent env s e) (invG_applyEvent env s hI e)

end Client

namespace Client

theorem stageA_step {n : Nat} (env : Env n) (s : GState n) (i : Fin n)
    (h401 : ∀ k, is401 (env.firstResp k) = true)
    (hA : StageAProp s) : StageAProp (applyEvent env s (.first i)) := by
  obtain ⟨hI, hRange, hCount⟩ := hA
  have hInv' := invG_applyEvent env s hI (Event.first i)
  by_cases hpi : s.phase i = .awaitFirst
  · by_cases hr : s.isRefreshing
    · rw [applyEvent_first_queued env s i hpi (h401 i) hr] at hInv' ⊢
      refine ⟨hInv', ?_, ?_⟩
      · intro k
        by_cases hki : k = i
        · subst hki; right; right; simp [Function.update_apply]
        · simpa [Function.update_apply, hki] using hRange k
      · simpa using hCount
    · have hrf : s.isRefreshing = false := by simpa using hr
      rw [applyEvent_first_refresher env s i hpi (h401 i) hrf] at hInv' ⊢
      refine ⟨hInv', ?_, ?_⟩
      · intro k
        by_cases hki : k = i
        · subst hki; right; left; simp [Function.update_apply]
        · simpa [Function.update_apply, hki] using hRange k
      · simp [hCount, hrf]
  · rw [applyEvent_first_skip env s i hpi] at hInv' ⊢
    exact ⟨hInv', hRange, hCount⟩

theorem stageA_run {n : Nat} (env : Env n)
    (h401 : ∀ k, is401 (env.firstResp k) = true) :
    ∀ (l : List (Event n)) (s : GState n),
      (∀ e ∈ l, ∃ i, e = Event.first i) → StageAProp s → StageAProp (runG env s l) := by
  intro l
  induction l with
  | nil => intro s _ hA; exact hA
  | cons e rest ih =>
    intro s hl hA
    obtain ⟨i, rfl⟩ := hl e (by simp)
    exact ih (applyEvent env s (.first i))
      (fun e' he' => hl e' (by simp [he'])) (stageA_step env s i h401 hA)

theorem first_leaves {n : Nat} (env : Env n) (s : GState n) (i : Fin n) :
    (applyEvent env s (.first i)).phase i ≠ .awaitFirst := by
  by_cases hpi : s.phase i = .awaitFirst
  · by_cases h4 : is401 (env.firstResp i)
    · by_cases hr : s.isRefreshing
      · rw [applyEvent_first_queued env s i hpi h4 hr]; simp [Function.update_apply]
      · rw [applyEvent_first_refresher env s i hpi h4 (by simpa using hr)]
        simp [Function.update_apply]
    · rw [applyEvent_first_pass env s i hpi (by simpa using h4)]
      simp [Function.update_apply]
  · rw [applyEvent_first_skip env s i hpi]; exact hpi

theorem not_await_step {n : Nat} (env : Env n) (s : GState n) (i : Fin n) (e : Event n)
    (h : s.phase i ≠ .awaitFirst) : (applyEvent env s e).phase i ≠ .awaitFirst := by
  cases e with
  | first j =>
    by_cases hpj : s.phase j = .awaitFirst
    · have hij : i ≠ j := fun hc => h (hc ▸ hpj)
      by_cases h4 : is401 (env.firstResp j)
      · by_cases hr : s.isRefreshing
        · rw [applyEvent_first_queued env s j hpj h4 hr]
          simpa [Function.update_apply, hij] using h
        · rw [applyEvent_first_refresher env s j hpj h4 (by simpa using hr)]
          simpa [Function.update_apply, hij] using h
      · rw [applyEvent_first_pass env s j hpj (by simpa using h4)]
        simpa [Function.update_apply, hij] using h
    · rw [applyEvent_first_skip env s j hpj]; exact h
  | refresh j =>
    by_cases hpj : s.phase j = .refreshing
    · by_cases hok : env.refreshOk
      · rw [applyEvent_refresh_ok env s j hpj hok]
        by_cases hc : i = j ∨ i ∈ s.queue <;> simp [hc] <;> exact h
      · rw [applyEvent_refresh_fail env s j hpj (by simpa using hok)]
        by_cases hc : i = j ∨ i ∈ s.queue <;> simp [hc] <;> exact h
    · rw [applyEvent_refresh_skip env s j hpj]; exact h
  | replay j =>
    by_cases hpj : s.phase j = .replaying
    · rw [applyEvent_replay_act env s j hpj]
      by_cases hij : i = j
      · subst hij; simp [Function.update_apply]
      · simpa [Function.update_apply, hij] using h
    · rw [applyEvent_replay_skip env s j hpj]; exact h

theorem not_await_run {n : Nat} (env : Env n) :
    ∀ (l : List (Event n)) (s : GState n) (i : Fin n),
      s.phase i ≠ .awaitFirst → (runG env s l).phase i ≠ .awaitFirst := by
  intro l
  induction l with
  | nil => intro s i h; exact h
  | cons e rest ih =>
    intro s i h
    exact ih (applyEvent env s e) i (not_await_step env s i e h)

theorem covered_not_await {n : Nat} (env : Env n) :
    ∀ (l : List (Event n)) (s : GState n) (i : Fin n),
      Event.first i ∈ l → (runG env s l).phase i ≠ .awaitFirst := by
  intro l
  induction l with
  | nil => intro s i h; exact absurd h (by simp)
  | cons e rest ih =>
    intro s i h
    rcases List.mem_cons.mp h with he | hrest
    · subst he
      exact not_await_run env rest (applyEvent env s (.first i)) i (first_leaves env s i)
    · exact ih (applyEvent env s e) i hrest

end Client

namespace Client

theorem post_refresh_no_refresher {n : Nat} (env : Env n) (s : GState n)
    (hI : InvG s) (r : Fin n) (hr : s.phase r = .refreshing) (k : Fin n) :
    (applyEvent env s (.refresh r)).phase k ≠ .refreshing := by
  obtain ⟨hUniq, _, _, _⟩ := hI
  by_cases hok : env.refreshOk
  · rw [applyEvent_refresh_ok env s r hr hok]
    by_cases hc : k = r ∨ k ∈ s.queue
    · simp [hc]
    · simp only [hc, if_false]
      intro hk
      exact hc (Or.inl (hUniq k r hk hr))
  · rw [applyEvent_refresh_fail env s r hr (by simpa using hok)]
    by_cases hc : k = r ∨ k ∈ s.queue
    · simp [hc]
    · simp only [hc, if_false]
      intro hk
      exact hc (Or.inl (hUniq k r hk hr))

theorem norefresher_refresh_run {n : Nat} (env : Env n) :
    ∀ (l : List (Event n)) (s : GState n),
      (∀ k, s.phase k ≠ .refreshing) → (∀ e ∈ l, ∃ i, e = Event.refresh i) →
      runG env s l = s := by
  intro l
  induction l with
  | nil => intro s _ _; rfl
  | cons e rest ih =>
    intro s hnr hl
    obtain ⟨j, rfl⟩ := hl e (List.mem_cons_self e rest)
    have hskip : applyEvent env s (.refresh j) = s := applyEvent_refresh_skip env s j (hnr j)
    show runG env (applyEvent env s (.refresh j)) rest = s
    rw [hskip]
    exact ih s hnr (fun e' he' => hl e' (by simp [he']))

theorem stageB_run {n : Nat} (env : Env n) :
    ∀ (l : List (Event n)) (s : GState n) (r : Fin n),
      InvG s → s.phase r = .refreshing →
      (∀ e ∈ l, ∃ i, e = Event.refresh i) → Event.refresh r ∈ l →
      runG env s l = applyEvent env s (.refresh r) := by
  intro l
  induction l with
  | nil => intro s r _ _ _ hmem; exact absurd hmem (by simp)
  | cons e rest ih =>
    intro s r hI hr hl hmem
    obtain ⟨j, rfl⟩ := hl e (List.mem_cons_self e rest)
    by_cases hjr : j = r
    · subst hjr
      show runG env (applyEvent env s (.refresh j)) rest = applyEvent env s (.refresh j)
      exact norefresher_refresh_run env rest _ (post_refresh_no_refresher env s hI j hr)
        (fun e' he' => hl e' (by simp [he']))
    · have hpj : s.phase j ≠ .refreshing := fun hc => hjr (hI.1 j r hc hr)
      have hskip : applyEvent env s (.refresh j) = s := applyEvent_refresh_skip env s j hpj
      show runG env (applyEvent env s (.refresh j)) rest = applyEvent env s (.refresh r)
      rw [hskip]
      refine ih s r hI hr (fun e' he' => hl e' (by simp [he'])) ?_
      rcases List.mem_cons.mp hmem with he | hrest
      · exact absurd (by injection he with h; exact h.symm) hjr
      · exact hrest

theorem stageB_props {n : Nat} (env : Env n) (s : GState n) (r : Fin n)
    (hI : InvG s) (hr : s.phase r = .refreshing)
    (hall : ∀ i, s.phase i = .refreshing ∨ s.phase i = .queued) :
    (∀ i, (applyEvent env s (.refresh r)).phase i = .replaying ∨
          (applyEvent env s (.refresh r)).phase i = .settled .rejectedRefresh) ∧
    (applyEvent env s (.refresh r)).rotateCount = s.rotateCount := by
  obtain ⟨hUniq, _, hQ, _⟩ := hI
  have hin : ∀ i, i = r ∨ i ∈ s.queue := by
    intro i
    rcases hall i with h | h
    · exact Or.inl (hUniq i r h hr)
    · exact Or.inr ((hQ i).mpr h)
  by_cases hok : env.refreshOk
  · rw [applyEvent_refresh_ok env s r hr hok]
    exact ⟨fun i => Or.inl (by simp [hin i]), rfl⟩
  · rw [applyEvent_refresh_fail env s r hr (by simpa using hok)]
    exact ⟨fun i => Or.inr (by simp [hin i]), rfl⟩

theorem settled_replay_step {n : Nat} (env : Env n) (s : GState n) (i j : Fin n)
    (h : settledB (s.phase i) = true) :
    settledB ((applyEvent env s (.replay j)).phase i) = true := by
  by_cases hpj : s.phase j = .replaying
  · rw [applyEvent_replay_act env s j hpj]
    by_cases hij : i = j
    · subst hij; rw [hpj] at h; simp [settledB] at h
    · simpa [Function.update_apply, hij] using h
  · rw [applyEvent_replay_skip env s j hpj]; exact h

theorem settled_replay_run {n : Nat} (env : Env n) :
    ∀ (l : List (Event n)) (s : GState n) (i : Fin n),
      (∀ e ∈ l, ∃ k, e = Event.replay k) → settledB (s.phase i) = true →
      settledB ((runG env s l).phase i) = true := by
  intro l
  induction l with
  | nil => intro s i _ h; exact h
  | cons e rest ih =>
    intro s i hl h
    obtain ⟨k, rfl⟩ := hl e (List.mem_cons_self e rest)
    exact ih _ i (fun e' he' => hl e' (by simp [he'])) (settled_replay_step env s i k h)

theorem replaying_settles_run {n : Nat} (env : Env n) :
    ∀ (l : List (Event n)) (s : GState n) (i : Fin n),
      (∀ e ∈ l, ∃ k, e = Event.replay k) →
      (s.phase i = .replaying ∨ settledB (s.phase i) = true) →
      Event.replay i ∈ l →
      settledB ((runG env s l).phase i) = true := by
  intro l
  induction l with
  | nil => intro s i _ _ hmem; exact absurd hmem (by simp)
  | cons e rest ih =>
    intro s i hl hi hmem
    obtain ⟨k, rfl⟩ := hl e (List.mem_cons_self e rest)
    by_cases hik : i = k
    · subst hik
      rcases hi with hrep | hset
      · have hact := applyEvent_replay_act env s i hrep
        refine settled_replay_run env rest _ i (fun e' he' => hl e' (by simp [he'])) ?_
        rw [hact]; simp [Function.update_apply, settledB]
      · exact settled_replay_run env rest _ i (fun e' he' => hl e' (by simp [he']))
          (settled_replay_step env s i i hset)
    · have hphase : (applyEvent env s (.replay k)).phase i = s.phase i := by
        by_cases hpk : s.phase k = .replaying
        · rw [applyEvent_replay_act env s k hpk]
          simp [Function.update_apply, hik]
        · rw [applyEvent_replay_skip env s k hpk]
      refine ih _ i (fun e' he' => hl e' (by simp [he'])) (by rw [hphase]; exact hi) ?_
      rcases List.mem_cons.mp hmem with he | hrest
      · exact absurd he (by simp [hik])
      · exact hrest

theorem rotateCount_replay_run {n : Nat} (env : Env n) :
    ∀ (l : List (Event n)) (s : GState n),
      (∀ e ∈ l, ∃ k, e = Event.replay k) →
      (runG env s l).rotateCount = s.rotateCount := by
  intro l
  induction l with
  | nil => intro s _; rfl
  | cons e rest ih =>
    intro s hl
    obtain ⟨k, rfl⟩ := hl e (List.mem_cons_self e rest)
    have hcnt : (applyEvent env s (.replay k)).rotateCount = s.rotateCount := by
      by_cases hpk : s.phase k = .replaying
      · rw [applyEvent_replay_act env s k hpk]
      · rw [applyEvent_replay_skip env s k hpk]
    rw [runG, List.foldl_cons, ← runG, ih _ (fun e' he' => hl e' (by simp [he'])), hcnt]

end Client

namespace Client

/-- Claim C5: in every interleaving in which all N callers receive their 401
before the single in-flight refresh settles (the burst the spec describes),
exactly one rotate request reaches the server (`rotateCount = 1`) and every
caller ends settled; moreover — over every interleaving whatsoever — at most
one rotate call is in flight at any time (the refresher is unique). -/
theorem single_flight (n : Nat) (hn : 0 < n) (env : Env n) (tok0 usr0 : Option Nat)
    (h401 : ∀ i, is401 (env.firstResp i) = true)
    (l1 m l2 : List (Event n))
    (hl1a : ∀ e ∈ l1, ∃ i, e = Event.first i) (hl1b : ∀ i : Fin n, Event.first i ∈ l1)
    (hma : ∀ e ∈ m, ∃ i, e = Event.refresh i) (hmb : ∀ i : Fin n, Event.refresh i ∈ m)
    (hl2a : ∀ e ∈ l2, ∃ i, e = Event.replay i) (hl2b : ∀ i : Fin n, Event.replay i ∈ l2) :
    (∀ i, settledB ((runG env (initG n tok0 usr0) (l1 ++ m ++ l2)).phase i) = true) ∧
    (runG env (initG n tok0 usr0) (l1 ++ m ++ l2)).rotateCount = 1 ∧
    (∀ evs : List (Event n), ∀ i j,
      (runG env (initG n tok0 usr0) evs).phase i = .refreshing →
      (runG env (initG n tok0 usr0) evs).phase j = .refreshing → i = j) := by
  have hsplit : runG env (initG n tok0 usr0) (l1 ++ m ++ l2)
      = runG env (runG env (runG env (initG n tok0 usr0) l1) m) l2 := by
    simp [runG, List.foldl_append]
  have hA : StageAProp (runG env (initG n tok0 usr0) l1) :=
    stageA_run env h401 l1 _ hl1a
      ⟨invG_initG n tok0 usr0, fun _ => Or.inl rfl, by simp [initG]⟩
  set s1 := runG env (initG n tok0 usr0) l1 with hs1
  obtain ⟨hI1, hRange1, hCount1⟩ := hA
  have hnotawait : ∀ i : Fin n, s1.phase i ≠ .awaitFirst :=
    fun i => covered_not_await env l1 _ i (hl1b i)
  have hall1 : ∀ i, s1.phase i = .refreshing ∨ s1.phase i = .queued := by
    intro i
    rcases hRange1 i with h | h | h
    · exact absurd h (hnotawait i)
    · exact Or.inl h
    · exact Or.inr h
  have hflag : s1.isRefreshing = true := by
    cases hflagc : s1.isRefreshing
    · exfalso
      obtain ⟨hnor, hemp⟩ := hI1.2.1 hflagc
      rcases hall1 ⟨0, hn⟩ with h | h
      · exact hnor _ h
      · have hm := (hI1.2.2.1 ⟨0, hn⟩).mpr h
        rw [hemp] at hm
        simp at hm
    · rfl
  have hcnt1 : s1.rotateCount = 1 := by rw [hCount1, hflag]; rfl
  obtain ⟨r, hrr⟩ := hI1.2.2.2 hflag
  have hB : runG env s1 m = applyEvent env s1 (.refresh r) :=
    stageB_run env m s1 r hI1 hrr hma (hmb r)
  obtain ⟨hall2, hcnt2⟩ := stageB_props env s1 r hI1 hrr hall1
  refine ⟨?_, ?_, ?_⟩
  · intro i
    rw [hsplit, hB]
    refine replaying_settles_run env l2 _ i hl2a ?_ (hl2b i)
    rcases hall2 i with h | h
    · exact Or.inl h
    · exact Or.inr (by rw [h]; rfl)
  · rw [hsplit, hB, rotateCount_replay_run env l2 _ hl2a, hcnt2, hcnt1]
  · intro evs i j hi hj
    exact (invG_runG env evs _ (invG_initG n tok0 usr0)).1 i j hi hj

/-- Claim C6: when the in-flight refresh settles, every pending queue entry
is settled exactly once — each entry belonged to a caller still in the
`queued` phase, the settling step moves it to `replaying` (resolving; the
recorded replay token is the store token current at settlement) or to
rejected, and the queue is empty afterwards; no other event settles a
queued entry. -/
theorem queue_settled_exactly_once (n : Nat) (env : Env n) (s : GState n) (i : Fin n)
    (hI : InvG s) (hp : s.phase i = .refreshing) :
    (applyEvent env s (.refresh i)).queue = [] ∧
    (∀ j ∈ s.queue, s.phase j = .queued) ∧
    (∀ j ∈ s.queue,
      (env.refreshOk = true →
        (applyEvent env s (.refresh i)).phase j = .replaying ∧
        (applyEvent env s (.refresh i)).replayToken j
          = some (applyEvent env s (.refresh i)).storeToken) ∧
      (env.refreshOk = false →
        (applyEvent env s (.refresh i)).phase j = .settled .rejectedRefresh)) ∧
    (∀ j ∈ s.queue, ∀ k : Fin n,
      (applyEvent env s (.first k)).phase j = .queued ∧
      (applyEvent env s (.replay k)).phase j = .queued ∧
      (k ≠ i → (applyEvent env s (.refresh k)).phase j = .queued)) := by
  refine ⟨?_, ?_, ?_, ?_⟩
  · by_cases hok : env.refreshOk
    · rw [applyEvent_refresh_ok env s i hp hok]
    · rw [applyEvent_refresh_fail env s i hp (by simpa using hok)]
  · intro j hj; exact (hI.2.2.1 j).mp hj
  · intro j hj
    constructor
    · intro hok
      rw [applyEvent_refresh_ok env s i hp hok]
      constructor
      · simp [hj]
      · simp [hj]
    · intro hfail
      rw [applyEvent_refresh_fail env s i hp hfail]
      simp [hj]
  · intro j hj k
    have hqj : s.phase j = .queued := (hI.2.2.1 j).mp hj
    refine ⟨?_, ?_, ?_⟩
    · by_cases hpk : s.phase k = .awaitFirst
      · have hjk : j ≠ k := by
          intro hc; rw [hc, hpk] at hqj; exact absurd hqj (by simp)
        by_cases h4 : is401 (env.firstResp k)
        · by_cases hr : s.isRefreshing
          · rw [applyEvent_first_queued env s k hpk h4 hr]
            simpa [Function.update_apply, hjk] using hqj
          · rw [applyEvent_first_refresher env s k hpk h4 (by simpa using hr)]
            simpa [Function.update_apply, hjk] using hqj
        · rw [applyEvent_first_pass env s k hpk (by simpa using h4)]
          simpa [Function.update_apply, hjk] using hqj
      · rw [applyEvent_first_skip env s k hpk]; exact hqj
    · by_cases hpk : s.phase k = .replaying
      · have hjk : j ≠ k := by
          intro hc; rw [hc, hpk] at hqj; exact absurd hqj (by simp)
        rw [applyEvent_replay_act env s k hpk]
        simpa [Function.update_apply, hjk] using hqj
      · rw [applyEvent_replay_skip env s k hpk]; exact hqj
    · intro hki
      have hpk : s.phase k ≠ .refreshing := fun hc => hki (hI.1 k i hc hp)
      rw [applyEvent_refresh_skip env s k hpk]; exact hqj

/-- Claim C7: whichever caller's rotate call fails, every queued caller's
promise rejects, the refresher's own promise rejects, and `forceLogout`
leaves the local session state empty — no stored user data, no access
token, and the `accessToken` cookie expired. -/
theorem forced_logout_propagation (n : Nat) (env : Env n) (s : GState n) (i : Fin n)
    (hp : s.phase i = .refreshing) (hfail : env.refreshOk = false) :
    (∀ j ∈ s.queue, (applyEvent env s (.refresh i)).phase j = .settled .rejectedRefresh) ∧
    (applyEvent env s (.refresh i)).phase i = .settled .rejectedRefresh ∧
    (applyEvent env s (.refresh i)).storeUser = none ∧
    (applyEvent env s (.refresh i)).storeToken = none ∧
    (applyEvent env s (.refresh i)).cookieCleared = true := by
  rw [applyEvent_refresh_fail env s i hp hfail]
  refine ⟨?_, ?_, rfl, rfl, rfl⟩
  · intro j hj; simp [hj]
  · simp

/-- Claim C8: a first response that is a success or a non-401 failure is
handed back to the caller unchanged; the gateway sends no rotate request,
touches neither the flag nor the queue, and leaves every other caller
alone. -/
theorem passthrough_non401 (n : Nat) (env : Env n) (s : GState n) (i : Fin n)
    (hp : s.phase i = .awaitFirst)
    (h : (env.firstResp i).ok = true ∨ (env.firstResp i).status ≠ 401) :
    (applyEvent env s (.first i)).phase i = .settled (.passthrough (env.firstResp i)) ∧
    (applyEvent env s (.first i)).rotateCount = s.rotateCount ∧
    (applyEvent env s (.first i)).isRefreshing = s.isRefreshing ∧
    (applyEvent env s (.first i)).queue = s.queue ∧
    ∀ j, j ≠ i → (applyEvent env s (.first i)).phase j = s.phase j := by
  have h4 : is401 (env.firstResp i) = false := by
    rcases h with h | h <;> simp [is401, h]
  rw [applyEvent_first_pass env s i hp h4]
  refine ⟨by simp [Function.update_apply], rfl, rfl, rfl, ?_⟩
  intro j hj
  simp [Function.update_apply, hj]

end Client

namespace Client

/-- Witness for C5: two callers, both first responses 401, refresh succeeds,
responses arriving first-0, first-1, refresh, replay-0, replay-1. -/
theorem single_flight_witness :
    (∀ i, settledB ((runG (⟨fun _ => ⟨false, 401, 0⟩, true, 42, fun _ => ⟨true, 200, 7⟩⟩ : Env 2)
        (initG 2 (some 1) (some 5))
        ([Event.first 0, Event.first 1] ++ [Event.refresh 0, Event.refresh 1]
          ++ [Event.replay 0, Event.replay 1])).phase i) = true) ∧
    (runG (⟨fun _ => ⟨false, 401, 0⟩, true, 42, fun _ => ⟨true, 200, 7⟩⟩ : Env 2)
        (initG 2 (some 1) (some 5))
        ([Event.first 0, Event.first 1] ++ [Event.refresh 0, Event.refresh 1]
          ++ [Event.replay 0, Event.replay 1])).rotateCount = 1 ∧
    (∀ evs : List (Event 2), ∀ i j,
      (runG (⟨fun _ => ⟨false, 401, 0⟩, true, 42, fun _ => ⟨true, 200, 7⟩⟩ : Env 2)
        (initG 2 (some 1) (some 5)) evs).phase i = .refreshing →
      (runG (⟨fun _ => ⟨false, 401, 0⟩, true, 42, fun _ => ⟨true, 200, 7⟩⟩ : Env 2)
        (initG 2 (some 1) (some 5)) evs).phase j = .refreshing → i = j) :=
  single_flight 2 (by decide)
    ⟨fun _ => ⟨false, 401, 0⟩, true, 42, fun _ => ⟨true, 200, 7⟩⟩ (some 1) (some 5)
    (by decide)
    [Event.first 0, Event.first 1] [Event.refresh 0, Event.refresh 1]
    [Event.replay 0, Event.replay 1]
    (by decide) (by decide) (by decide) (by decide) (by decide) (by decide)

/-- Witness for C6: caller 0 refreshing, caller 1 queued, refresh succeeds. -/
theorem queue_settled_exactly_once_witness :
    (applyEvent (⟨fun _ => ⟨false, 401, 0⟩, true, 42, fun _ => ⟨true, 200, 7⟩⟩ : Env 2)
      (⟨fun j => if j = 0 then CPhase.refreshing else CPhase.queued, true, [1], 1,
        some 0, some 9, false, fun _ => none⟩ : GState 2) (.refresh 0)).queue = [] ∧
    (∀ j ∈ (⟨fun j => if j = 0 then CPhase.refreshing else CPhase.queued, true, [1], 1,
        some 0, some 9, false, fun _ => none⟩ : GState 2).queue,
      (⟨fun j => if j = 0 then CPhase.refreshing else CPhase.queued, true, [1], 1,
        some 0, some 9, false, fun _ => none⟩ : GState 2).phase j = .queued) ∧
    (∀ j ∈ (⟨fun j => if j = 0 then CPhase.refreshing else CPhase.queued, true, [1], 1,
        some 0, some 9, false, fun _ => none⟩ : GState 2).queue,
      ((⟨fun _ => ⟨false, 401, 0⟩, true, 42, fun _ => ⟨true, 200, 7⟩⟩ : Env 2).refreshOk = true →
        (applyEvent (⟨fun _ => ⟨false, 401, 0⟩, true, 42, fun _ => ⟨true, 200, 7⟩⟩ : Env 2)
          (⟨fun j => if j = 0 then CPhase.refreshing else CPhase.queued, true, [1], 1,
            some 0, some 9, false, fun _ => none⟩ : GState 2) (.refresh 0)).phase j = .replaying ∧
        (applyEvent (⟨fun _ => ⟨false, 401, 0⟩, true, 42, fun _ => ⟨true, 200, 7⟩⟩ : Env 2)
          (⟨fun j => if j = 0 then CPhase.refreshing else CPhase.queued, true, [1], 1,
            some 0, some 9, false, fun _ => none⟩ : GState 2) (.refresh 0)).replayToken j
          = some (applyEvent (⟨fun _ => ⟨false, 401, 0⟩, true, 42, fun _ => ⟨true, 200, 7⟩⟩ : Env 2)
          (⟨fun j => if j = 0 then CPhase.refreshing else CPhase.queued, true, [1], 1,
            some 0, some 9, false, fun _ => none⟩ : GState 2) (.refresh 0)).storeToken) ∧
      ((⟨fun _ => ⟨false, 401, 0⟩, true, 42, fun _ => ⟨true, 200, 7⟩⟩ : Env 2).refreshOk = false →
        (applyEvent (⟨fun _ => ⟨false, 401, 0⟩, true, 42, fun _ => ⟨true, 200, 7⟩⟩ : Env 2)
          (⟨fun j => if j = 0 then CPhase.refreshing else CPhase.queued, true, [1], 1,
            some 0, some 9, false, fun _ => none⟩ : GState 2) (.refresh 0)).phase j
          = .settled .rejectedRefresh)) ∧
    (∀ j ∈ (⟨fun j => if j = 0 then CPhase.refreshing else CPhase.queued, true, [1], 1,
        some 0, some 9, false, fun _ => none⟩ : GState 2).queue, ∀ k : Fin 2,
      (applyEvent (⟨fun _ => ⟨false, 401, 0⟩, true, 42, fun _ => ⟨true, 200, 7⟩⟩ : Env 2)
        (⟨fun j => if j = 0 then CPhase.refreshing else CPhase.queued, true, [1], 1,
          some 0, some 9, false, fun _ => none⟩ : GState 2) (.first k)).phase j = .queued ∧
      (applyEvent (⟨fun _ => ⟨false, 401, 0⟩, true, 42, fun _ => ⟨true, 200, 7⟩⟩ : Env 2)
        (⟨fun j => if j = 0 then CPhase.refreshing else CPhase.queued, true, [1], 1,
          some 0, some 9, false, fun _ => none⟩ : GState 2) (.replay k)).phase j = .queued ∧
      (k ≠ 0 →
        (applyEvent (⟨fun _ => ⟨false, 401, 0⟩, true, 42, fun _ => ⟨true, 200, 7⟩⟩ : Env 2)
          (⟨fun j => if j = 0 then CPhase.refreshing else CPhase.queued, true, [1], 1,
            some 0, some 9, false, fun _ => none⟩ : GState 2) (.refresh k)).phase j = .queued)) :=
  queue_settled_exactly_once 2
    ⟨fun _ => ⟨false, 401, 0⟩, true, 42, fun _ => ⟨true, 200, 7⟩⟩
    ⟨fun j => if j = 0 then CPhase.refreshing else CPhase.queued, true, [1], 1,
      some 0, some 9, false, fun _ => none⟩ 0
    (by constructor
        · decide
        · constructor
          · decide
          · constructor
            · decide
            · decide)
    (by decide)

/-- Witness for C7: caller 0 refreshing, caller 1 queued, refresh fails. -/
theorem forced_logout_propagation_witness :
    (∀ j ∈ (⟨fun j => if j = 0 then CPhase.refreshing else CPhase.queued, true, [1], 1,
        some 0, some 9, false, fun _ => none⟩ : GState 2).queue,
      (applyEvent (⟨fun _ => ⟨false, 401, 0⟩, false, 42, fun _ => ⟨true, 200, 7⟩⟩ : Env 2)
        (⟨fun j => if j = 0 then CPhase.refreshing else CPhase.queued, true, [1], 1,
          some 0, some 9, false, fun _ => none⟩ : GState 2) (.refresh 0)).phase j
        = .settled .rejectedRefresh) ∧
    (applyEvent (⟨fun _ => ⟨false, 401, 0⟩, false, 42, fun _ => ⟨true, 200, 7⟩⟩ : Env 2)
      (⟨fun j => if j = 0 then CPhase.refreshing else CPhase.queued, true, [1], 1,
        some 0, some 9, false, fun _ => none⟩ : GState 2) (.refresh 0)).phase 0
      = .settled .rejectedRefresh ∧
    (applyEvent (⟨fun _ => ⟨false, 401, 0⟩, false, 42, fun _ => ⟨true, 200, 7⟩⟩ : Env 2)
      (⟨fun j => if j = 0 then CPhase.refreshing else CPhase.queued, true, [1], 1,
        some 0, some 9, false, fun _ => none⟩ : GState 2) (.refresh 0)).storeUser = none ∧
    (applyEvent (⟨fun _ => ⟨false, 401, 0⟩, false, 42, fun _ => ⟨true, 200, 7⟩⟩ : Env 2)
      (⟨fun j => if j = 0 then CPhase.refreshing else CPhase.queued, true, [1], 1,
        some 0, some 9, false, fun _ => none⟩ : GState 2) (.refresh 0)).storeToken = none ∧
    (applyEvent (⟨fun _ => ⟨false, 401, 0⟩, false, 42, fun _ => ⟨true, 200, 7⟩⟩ : Env 2)
      (⟨fun j => if j = 0 then CPhase.refreshing else CPhase.queued, true, [1], 1,
        some 0, some 9, false, fun _ => none⟩ : GState 2) (.refresh 0)).cookieCleared = true :=
  forced_logout_propagation 2
    ⟨fun _ => ⟨false, 401, 0⟩, false, 42, fun _ => ⟨true, 200, 7⟩⟩
    ⟨fun j => if j = 0 then CPhase.refreshing else CPhase.queued, true, [1], 1,
      some 0, some 9, false, fun _ => none⟩ 0
    (by decide) rfl

/-- Witness for C8: a single caller whose first response is a 200 success. -/
theorem passthrough_non401_witness :
    (applyEvent (⟨fun _ => ⟨true, 200, 3⟩, true, 0, fun _ => ⟨true, 200, 3⟩⟩ : Env 1)
      (initG 1 none none) (.first 0)).phase 0
      = .settled (.passthrough ((⟨fun _ => ⟨true, 200, 3⟩, true, 0,
          fun _ => ⟨true, 200, 3⟩⟩ : Env 1).firstResp 0)) ∧
    (applyEvent (⟨fun _ => ⟨true, 200, 3⟩, true, 0, fun _ => ⟨true, 200, 3⟩⟩ : Env 1)
      (initG 1 none none) (.first 0)).rotateCount = (initG 1 none none).rotateCount ∧
    (applyEvent (⟨fun _ => ⟨true, 200, 3⟩, true, 0, fun _ => ⟨true, 200, 3⟩⟩ : Env 1)
      (initG 1 none none) (.first 0)).isRefreshing = (initG 1 none none).isRefreshing ∧
    (applyEvent (⟨fun _ => ⟨true, 200, 3⟩, true, 0, fun _ => ⟨true, 200, 3⟩⟩ : Env 1)
      (initG 1 none none) (.first 0)).queue = (initG 1 none none).queue ∧
    ∀ j, j ≠ 0 →
      (applyEvent (⟨fun _ => ⟨true, 200, 3⟩, true, 0, fun _ => ⟨true, 200, 3⟩⟩ : Env 1)
        (initG 1 none none) (.first 0)).phase j = (initG 1 none none).phase j :=
  passthrough_non401 1
    ⟨fun _ => ⟨true, 200, 3⟩, true, 0, fun _ => ⟨true, 200, 3⟩⟩
    (initG 1 none none) 0 rfl (Or.inl rfl)

end Client

